import Mathlib

/-!
# Verification of the bsan state-monitoring engine

Shallow embedding of the bsan library (a truffle test add-on that tracks
externally-held chain state and detects unasserted changes) together with
proofs about its claimed behaviour.

The embedding follows the JavaScript sources:
* `src/utils.js`          — `dynamicEquals`, `gasForReceipt`
* `src/monitors/monitor.js` — the `StateMonitor` base class
* `src/monitors/ethwallet.js` — the `ETHAddress` (gas-adjusted wallet) monitor
* `src/monitors/state.js` (`DappState` aggregator and `ContractState`)

Conventions used throughout:
* BN.js big integers are modelled as `Int` (BN arithmetic is exact).
* Asynchrony is modelled away: every `await`ed fetch is passed in explicitly
  as the value the external source would return at that point; a fetch
  failure is an `Option` that is `none`.
* JavaScript exceptions are modelled with `Except String`.
-/

namespace Bsan

/-! ## Decoded JS values

The values the monitors compare are decoded call results: BN.js instances,
primitive scalars, and plain structured records.  `JSVal.obj` carries the
object's own enumerable fields in enumeration order; JavaScript objects never
enumerate the same key twice, which `JSWF` (below) captures.  Values of type
`function`/`symbol`/`undefined` (which would reach the source's final
"unsupported comparison type" throw) never occur in decoded call results and
are outside this grammar. -/

inductive JSVal : Type where
  | num  (n : Int)
  | str  (s : String)
  | bool (b : Bool)
  | bn   (n : Int)
  | obj  (fields : List (String × JSVal))

/-- JavaScript `typeof`.  BN.js instances are ordinary objects. -/
def jsTypeof : JSVal → String
  | .num _ => "number"
  | .str _ => "string"
  | .bool _ => "boolean"
  | .bn _ => "object"
  | .obj _ => "object"

/-- `web3.utils.isBN` (external library predicate). -/
def isBN : JSVal → Bool
  | .bn _ => true
  | _ => false

/-- JavaScript property lookup `fields[k]` on an own-field list: the first
entry with the matching key (field lists of real JS objects have unique
keys). -/
def findField (k : String) : List (String × JSVal) → Option JSVal
  | [] => none
  | (k2, v) :: rest => if k2 = k then some v else findField k rest

theorem sizeOf_findField {k : String} :
    ∀ {fs : List (String × JSVal)} {v : JSVal},
      findField k fs = some v → sizeOf v < sizeOf fs := by
  intro fs
  induction fs with
  | nil => intro v h; simp [findField] at h
  | cons p rest ih =>
    intro v h
    obtain ⟨k2, w⟩ := p
    simp only [findField] at h
    by_cases hk : k2 = k
    · simp [hk] at h
      subst h
      simp
      omega
    · simp [hk] at h
      have := ih h
      simp
      omega

/-- The source's type-mismatch error message
(`utils.js`: ``cannot compare objects of different types (${typeof a} != ${typeof b})``). -/
def typeMismatchMsg (ta tb : String) : String :=
  "ContractState: Error asserting state - cannot compare objects of different types (" ++
    ta ++ " != " ++ tb ++ ")"

mutual

/-- `dynamicEquals` from `src/utils.js`.

```js
const dynamicEquals = (a, b) => {
  if (typeof a !== typeof b) { throw ... }
  if (web3.utils.isBN(a) && web3.utils.isBN(b)) { return a.eq(b); }
  else if ((typeof a) === "string" || "number" || "boolean") { return a === b; }
  else if (typeof a === "object") {
    const keysA = Object.keys(a); const keysB = Object.keys(b);
    if (keysA.length != keysB.length) { return false; }
    for (let key of keysA) {
      if (["0", "1", "2", "3"].includes(key)) { continue; }
      if (!keysB.includes(key)) { return false; }
      if (!dynamicEquals(a[key], b[key])) { return false; }
    }
    return true;
  } else { throw unsupported; }
}
```

The catch-all arm covers a BN compared against a plain record (both have
`typeof === "object"`, so the source would key-walk the BN's internal
fields, which never coincide with a decoded record's fields; the library
internals are abstracted and the comparison is modelled as `false`).  The
"unsupported comparison type" throw is unreachable on decoded values (no
`function`/`symbol`/`undefined` in the grammar). -/
def dynamicEquals (a b : JSVal) : Except String Bool :=
  if jsTypeof a ≠ jsTypeof b then
    .error (typeMismatchMsg (jsTypeof a) (jsTypeof b))
  else
    match a, b with
    | .bn x, .bn y => .ok (x == y)
    | .str x, .str y => .ok (x == y)
    | .num x, .num y => .ok (x == y)
    | .bool x, .bool y => .ok (x == y)
    | .obj fsA, .obj fsB =>
      if fsA.length ≠ fsB.length then .ok false
      else walkFields fsA fsB
    | _, _ => .ok false
termination_by sizeOf a + sizeOf b
decreasing_by
  all_goals simp_wf
  all_goals omega

/-- The `for (let key of keysA)` loop of `dynamicEquals`, walking the first
object's fields in enumeration order (for a real JS object the iterated
entry's value is exactly `a[key]`, since keys are unique).  The `none`
lookup arm is unreachable: it is guarded by `keysB.includes(key)`. -/
def walkFields (fsA fsB : List (String × JSVal)) : Except String Bool :=
  match fsA with
  | [] => .ok true
  | (k, v) :: rest =>
    if k = "0" ∨ k = "1" ∨ k = "2" ∨ k = "3" then
      walkFields rest fsB
    else if ¬ (fsB.map Prod.fst).contains k then
      .ok false
    else
      match hw : findField k fsB with
      | some w =>
        match dynamicEquals v w with
        | .ok true => walkFields rest fsB
        | .ok false => .ok false
        | .error e => .error e
      | none => .ok false
termination_by sizeOf fsA + sizeOf fsB
decreasing_by
  all_goals simp_wf
  all_goals first
    | omega
    | (have hsz := sizeOf_findField hw; omega)

end

/-- The positional-duplicate test `["0", "1", "2", "3"].includes(key)` used by
the key walk. -/
def isPositional (k : String) : Prop :=
  k = "0" ∨ k = "1" ∨ k = "2" ∨ k = "3"

instance (k : String) : Decidable (isPositional k) := by
  unfold isPositional; infer_instance

/-- Well-formedness of a decoded JS value: every structured record enumerates
each key once (as `Object.keys` does for any real JavaScript object). -/
inductive JSWF : JSVal → Prop where
  | num (n : Int) : JSWF (.num n)
  | str (s : String) : JSWF (.str s)
  | bool (b : Bool) : JSWF (.bool b)
  | bn (n : Int) : JSWF (.bn n)
  | obj (fs : List (String × JSVal))
      (hnodup : (fs.map Prod.fst).Nodup)
      (hvals : ∀ p ∈ fs, JSWF p.2) : JSWF (.obj fs)

theorem contains_of_findField {k : String} {fs : List (String × JSVal)} {w : JSVal}
    (h : findField k fs = some w) : (fs.map Prod.fst).contains k = true := by
  induction fs with
  | nil => simp [findField] at h
  | cons p rest ih =>
    obtain ⟨k2, v⟩ := p
    simp only [findField] at h
    by_cases hk : k2 = k
    · simp [hk]
    · simp [hk] at h
      have h2 := ih h
      simp at h2 ⊢
      tauto

theorem findField_eq_of_nodup {fs : List (String × JSVal)}
    (hnodup : (fs.map Prod.fst).Nodup) :
    ∀ {k : String} {v : JSVal}, (k, v) ∈ fs → findField k fs = some v := by
  induction fs with
  | nil => intro k v h; simp at h
  | cons p rest ih =>
    intro k v h
    obtain ⟨k2, w⟩ := p
    simp only [List.map_cons, List.nodup_cons] at hnodup
    rcases List.mem_cons.mp h with h1 | h1
    · obtain ⟨hk, hv⟩ := Prod.mk.injEq .. ▸ h1
      simp [findField, hk, hv]
    · have hkne : k2 ≠ k := by
        intro hkk
        exact hnodup.1 (hkk ▸ (List.mem_map.mpr ⟨(k, v), h1, rfl⟩))
      simp [findField, hkne, ih hnodup.2 h1]

/-- If every non-positional field of `fsA` is found in `fsB` with a
recursively-equal value, the key walk succeeds. -/
theorem walkFields_ok :
    ∀ (fsA fsB : List (String × JSVal)),
      (∀ p ∈ fsA, ¬ isPositional p.1 →
        ∃ w, findField p.1 fsB = some w ∧ dynamicEquals p.2 w = .ok true) →
      walkFields fsA fsB = .ok true := by
  intro fsA
  induction fsA with
  | nil => intro fsB _; rw [walkFields.eq_def]
  | cons p rest ih =>
    intro fsB hall
    obtain ⟨k, v⟩ := p
    rw [walkFields.eq_def]
    by_cases hpos : k = "0" ∨ k = "1" ∨ k = "2" ∨ k = "3"
    · simp only [if_pos hpos]
      exact ih fsB (fun q hq => hall q (List.mem_cons_of_mem _ hq))
    · simp only [if_neg hpos]
      obtain ⟨w, hfind, heq⟩ := hall (k, v) (List.mem_cons_self _ _) hpos
      have hfind2 : findField k fsB = some w := hfind
      have heq2 : dynamicEquals v w = Except.ok true := heq
      rw [if_neg (not_not_intro (contains_of_findField hfind2))]
      split
      · rename_i w2 hww
        rw [hfind2] at hww
        injection hww with hww
        subst hww
        rw [heq2]
        exact ih fsB (fun q hq => hall q (List.mem_cons_of_mem _ hq))
      · rename_i hww
        simp [hfind2] at hww

/-- `dynamicEquals` is reflexive on well-formed values (it never throws on a
value compared against itself, and always answers `true`). -/
theorem dynamicEquals_refl {v : JSVal} (h : JSWF v) : dynamicEquals v v = .ok true := by
  induction h with
  | num n => rw [dynamicEquals.eq_def]; simp [jsTypeof]
  | str s => rw [dynamicEquals.eq_def]; simp [jsTypeof]
  | bool b => rw [dynamicEquals.eq_def]; simp [jsTypeof]
  | bn n => rw [dynamicEquals.eq_def]; simp [jsTypeof]
  | obj fs hnodup hvals ih =>
    rw [dynamicEquals.eq_def]
    have hw := walkFields_ok fs fs (fun p hp _ =>
      ⟨p.2, findField_eq_of_nodup hnodup hp, ih p hp⟩)
    simp [jsTypeof, hw]

/-! ## The `StateMonitor` base class (`src/monitors/monitor.js`)

The mutable fields of a monitor.  The constructor initialises
`lastValue`, `dirty = false`, `dirtyValue = null`; `reset()` stores
`false` in `dirtyValue` — both JS "cleared" sentinels (`null` and
`false`) are modelled as `none`.  The monitor's `equals` relation and
`adjustExpectation` hook (overridable per concrete kind) are parameters
`eqF` and `adj`; each fetched live value is supplied with the operation
that `await`s it. -/

structure MonitorState (V : Type) where
  lastValue : V
  dirty : Bool
  dirtyValue : Option V

/-- The operations a test performs on one monitor, each carrying the live
value its internal `fetchValue()` call would return. -/
inductive MonitorOp (V : Type) where
  | reset (toValue : Option V) (fetched : V)
  | checkDirty (fetched : V)
  | expect (value : V) (fetched : V)

/-- One step of `StateMonitor`:
* `reset(toValue)` sets `lastValue` to `toValue` if non-null else to the
  fetched value, then clears `dirty`/`dirtyValue`;
* `checkDirty()` recomputes `dirty := !equals(fetched, lastValue)` and
  stores the fetched value in `dirtyValue` when dirty (leaving it alone
  otherwise), without touching `lastValue`;
* `expect(value)` compares the fetched value against
  `adjustExpectation(value)`; on match it accepts the fetched value
  (`reset(actual)`), on mismatch it fails by assertion before any state
  is mutated (the numeric `asBN` casts are identities on the abstract
  value type). -/
def monitorStep {V : Type} (eqF : V → V → Bool) (adj : V → V) :
    MonitorOp V → MonitorState V → MonitorState V
  | .reset toValue fetched, _ =>
    { lastValue := toValue.getD fetched, dirty := false, dirtyValue := none }
  | .checkDirty fetched, s =>
    let d := !(eqF fetched s.lastValue)
    { s with dirty := d, dirtyValue := if d then some fetched else s.dirtyValue }
  | .expect value fetched, s =>
    if eqF fetched (adj value) then
      { lastValue := fetched, dirty := false, dirtyValue := none }
    else
      s

/-- A whole test run: fold the monitor through a sequence of operations. -/
def monitorRun {V : Type} (eqF : V → V → Bool) (adj : V → V)
    (ops : List (MonitorOp V)) (s : MonitorState V) : MonitorState V :=
  ops.foldl (fun s op => monitorStep eqF adj op s) s

/-- The spec's monitor invariant: while `dirty` is set, `dirtyValue` holds a
value that the monitor's equality relation distinguishes from `lastValue`. -/
def MonitorInv {V : Type} (eqF : V → V → Bool) (s : MonitorState V) : Prop :=
  s.dirty = true → ∃ v, s.dirtyValue = some v ∧ eqF v s.lastValue = false

theorem monitorStep_inv {V : Type} (eqF : V → V → Bool) (adj : V → V)
    (op : MonitorOp V) (s : MonitorState V) (h : MonitorInv eqF s) :
    MonitorInv eqF (monitorStep eqF adj op s) := by
  cases op with
  | reset toValue fetched => intro hd; simp [monitorStep] at hd
  | checkDirty fetched =>
    intro hd
    simp only [monitorStep] at hd ⊢
    by_cases he : eqF fetched s.lastValue
    · simp [he] at hd
    · refine ⟨fetched, by simp [he], by simpa using he⟩
  | expect value fetched =>
    intro hd
    simp only [monitorStep] at hd ⊢
    by_cases he : eqF fetched (adj value)
    · simp [he] at hd
    · simp only [if_neg he] at hd ⊢
      exact h hd

/-! ## The `DappState` aggregator (`src/monitors/state.js`)

A monitor as the aggregator sees it: its `type()` label, its
`serializeValue`, its `equals`, its current `StateMonitor` fields, and the
value its next `fetchValue()` would produce (`none` models a fetch
failure).  Groups are name-keyed in enumeration order; the aggregator's
`checkDirty()` runs the three groups and pushes one diagnostic per dirty
monitor.  The source starts all fetches of a group concurrently and then
pushes diagnostics in key order, so with a deterministic external source
the sequential model below observes the same per-group exception order;
the group-level interleaving of `Promise.all` is not modelled. -/

structure AMon (V : Type) where
  kind : String
  ser : V → String
  eqF : V → V → Bool
  live : Option V
  st : MonitorState V

/-- Whether a monitor's `checkDirty()` would report drift right now (false
when the fetch would fail, which raises instead of reporting). -/
def amonIsDirty {V : Type} (m : AMon V) : Bool :=
  match m.live with
  | some v => !(m.eqF v m.st.lastValue)
  | none => false

/-- `StateMonitor.checkDirty` run against the monitor's live value
(`this.dirty = !this.equals(value, this.lastValue); if (this.dirty)
this.dirtyValue = value; return this.dirty`). -/
def amonCheckDirty {V : Type} (m : AMon V) : Except String (AMon V × Bool) :=
  match m.live with
  | none => .error "fetchValue failed"
  | some v =>
    .ok ({ m with
           st := { lastValue := m.st.lastValue,
                   dirty := !(m.eqF v m.st.lastValue),
                   dirtyValue := if !(m.eqF v m.st.lastValue) then some v
                                 else m.st.dirtyValue } },
         !(m.eqF v m.st.lastValue))

/-- The diagnostic `_checkDirty` pushes for a dirty monitor (`state.js`):
``${monitor.type()}.${key}: un-asserted state change detected (${last}) => (${dirty})``
with both values run through `serializeValue`. -/
def dirtyMsg {V : Type} (k : String) (m : AMon V) (v : V) : String :=
  m.kind ++ "." ++ k ++ ": un-asserted state change detected (" ++
    m.ser m.st.lastValue ++ ") => (" ++ m.ser v ++ ")"

/-- The diagnostic a (dirty) group entry contributes; keyed on the monitor's
pre-check state and live value. -/
def msgOf {V : Type} (p : String × AMon V) : String :=
  match p.2.live with
  | some v => dirtyMsg p.1 p.2 v
  | none => ""

/-- `DappState._checkDirty` over one group: run every monitor's
`checkDirty`, append one `dirtyMsg` per dirty monitor (in key order) to the
exception list, and raise identifying the monitor if its fetch failed. -/
def checkGroup {V : Type} :
    List String → List (String × AMon V) →
      Except String (List String × List (String × AMon V))
  | excs, [] => .ok (excs, [])
  | excs, (k, m) :: rest =>
    match amonCheckDirty m with
    | .error e => .error ("Failed to check value of " ++ m.kind ++ "." ++ k ++ ": " ++ e)
    | .ok (m2, d) =>
      let excs2 := if d then excs ++ [msgOf (k, m)] else excs
      match checkGroup excs2 rest with
      | .error e => .error e
      | .ok (es, ms) => .ok (es, (k, m2) :: ms)

/-- The aggregator: the three monitor groups fixed at construction
(`this.all = [wallets, erc20, contract]`) plus the exception log. -/
structure DappState (V : Type) where
  wallets : List (String × AMon V)
  erc20 : List (String × AMon V)
  contract : List (String × AMon V)
  exceptions : List String

/-- Every monitor of the aggregator, in group order. -/
def aggPairs {V : Type} (s : DappState V) : List (String × AMon V) :=
  s.wallets ++ s.erc20 ++ s.contract

/-- `DappState.checkDirty`: `_checkDirty` over each group. -/
def aggCheckDirty {V : Type} (s : DappState V) : Except String (DappState V) :=
  match checkGroup s.exceptions s.wallets with
  | .error e => .error e
  | .ok (e1, w2) =>
    match checkGroup e1 s.erc20 with
    | .error e => .error e
    | .ok (e2, r2) =>
      match checkGroup e2 s.contract with
      | .error e => .error e
      | .ok (e3, c2) => .ok ⟨w2, r2, c2, e3⟩

/-- `DappState.assertNoExceptions`: raise a combined numbered message when
any diagnostics are queued. -/
def assertNoExceptions {V : Type} (s : DappState V) : Except String Unit :=
  if s.exceptions.length > 0 then
    .error ("The following exceptions occurred:\n" ++
      String.intercalate "\n"
        (s.exceptions.enum.map (fun p => "#" ++ toString p.1 ++ ": " ++ p.2)))
  else
    .ok ()

theorem checkGroup_ok_exceptions {V : Type} :
    ∀ (g : List (String × AMon V)) (excs es : List String)
      (ms : List (String × AMon V)),
      checkGroup excs g = .ok (es, ms) →
      es = excs ++ (g.filter (fun p => amonIsDirty p.2)).map msgOf := by
  intro g
  induction g with
  | nil =>
    intro excs es ms h
    simp only [checkGroup, Except.ok.injEq, Prod.mk.injEq] at h
    obtain ⟨h1, h2⟩ := h
    simp [← h1]
  | cons p rest ih =>
    intro excs es ms h
    obtain ⟨k, m⟩ := p
    rw [checkGroup] at h
    cases hlive : m.live with
    | none => simp [amonCheckDirty, hlive] at h
    | some v =>
      simp only [amonCheckDirty, hlive] at h
      by_cases he : m.eqF v m.st.lastValue
      · simp only [he, Bool.not_true, Bool.false_eq_true, if_false] at h
        cases hrest : checkGroup excs rest with
        | error e => rw [hrest] at h; simp at h
        | ok q =>
          obtain ⟨es2, ms2⟩ := q
          rw [hrest] at h
          simp only [Except.ok.injEq, Prod.mk.injEq] at h
          obtain ⟨h1, h2⟩ := h
          rw [← h1, ih _ _ _ hrest]
          simp [List.filter_cons, amonIsDirty, hlive, he]
      · simp only [Bool.not_eq_true] at he
        simp only [he, Bool.not_false, if_true] at h
        cases hrest : checkGroup (excs ++ [msgOf (k, m)]) rest with
        | error e => rw [hrest] at h; simp at h
        | ok q =>
          obtain ⟨es2, ms2⟩ := q
          rw [hrest] at h
          simp only [Except.ok.injEq, Prod.mk.injEq] at h
          obtain ⟨h1, h2⟩ := h
          rw [← h1, ih _ _ _ hrest]
          simp [List.filter_cons, amonIsDirty, hlive, he]

theorem checkGroup_ok_of_live {V : Type} :
    ∀ (g : List (String × AMon V)) (excs : List String),
      (∀ p ∈ g, p.2.live.isSome) →
      ∃ es ms, checkGroup excs g = .ok (es, ms) := by
  intro g
  induction g with
  | nil => intro excs _; exact ⟨excs, [], rfl⟩
  | cons p rest ih =>
    intro excs hall
    obtain ⟨k, m⟩ := p
    have hm := hall (k, m) (List.mem_cons_self _ _)
    cases hlive : m.live with
    | none => rw [hlive] at hm; simp at hm
    | some v =>
      by_cases he : m.eqF v m.st.lastValue
      · obtain ⟨es, ms, hrest⟩ :=
          ih excs (fun q hq => hall q (List.mem_cons_of_mem _ hq))
        cases hg : checkGroup excs ((k, m) :: rest) with
        | ok q =>
          obtain ⟨es2, ms2⟩ := q
          exact ⟨es2, ms2, rfl⟩
        | error e =>
          rw [checkGroup] at hg
          simp only [amonCheckDirty, hlive, he, Bool.not_true, Bool.false_eq_true,
            if_false] at hg
          rw [hrest] at hg
          simp at hg
      · simp only [Bool.not_eq_true] at he
        obtain ⟨es, ms, hrest⟩ :=
          ih (excs ++ [msgOf (k, m)])
            (fun q hq => hall q (List.mem_cons_of_mem _ hq))
        cases hg : checkGroup excs ((k, m) :: rest) with
        | ok q =>
          obtain ⟨es2, ms2⟩ := q
          exact ⟨es2, ms2, rfl⟩
        | error e =>
          rw [checkGroup] at hg
          simp only [amonCheckDirty, hlive, he, Bool.not_false, if_true] at hg
          rw [hrest] at hg
          simp at hg

theorem aggCheckDirty_ok_exceptions {V : Type} {s s2 : DappState V}
    (h : aggCheckDirty s = .ok s2) :
    s2.exceptions =
      s.exceptions ++ ((aggPairs s).filter (fun p => amonIsDirty p.2)).map msgOf := by
  rw [aggCheckDirty] at h
  cases h1 : checkGroup s.exceptions s.wallets with
  | error e => rw [h1] at h; simp at h
  | ok q1 =>
    obtain ⟨e1, w2⟩ := q1
    rw [h1] at h
    dsimp only at h
    cases h2 : checkGroup e1 s.erc20 with
    | error e => rw [h2] at h; simp at h
    | ok q2 =>
      obtain ⟨e2, r2⟩ := q2
      rw [h2] at h
      dsimp only at h
      cases h3 : checkGroup e2 s.contract with
      | error e => rw [h3] at h; simp at h
      | ok q3 =>
        obtain ⟨e3, c2⟩ := q3
        rw [h3] at h
        simp only [Except.ok.injEq] at h
        have g1 := checkGroup_ok_exceptions _ _ _ _ h1
        have g2 := checkGroup_ok_exceptions _ _ _ _ h2
        have g3 := checkGroup_ok_exceptions _ _ _ _ h3
        rw [← h]
        simp only [g3, g2, g1, aggPairs, List.filter_append, List.map_append,
          List.append_assoc]

theorem aggCheckDirty_ok_of_live {V : Type} {s : DappState V}
    (hall : ∀ p ∈ aggPairs s, p.2.live.isSome) :
    ∃ s2, aggCheckDirty s = .ok s2 := by
  have hw : ∀ p ∈ s.wallets, p.2.live.isSome = true := fun p hp =>
    hall p (by simp [aggPairs, hp])
  have he : ∀ p ∈ s.erc20, p.2.live.isSome = true := fun p hp =>
    hall p (by simp [aggPairs, hp])
  have hc : ∀ p ∈ s.contract, p.2.live.isSome = true := fun p hp =>
    hall p (by simp [aggPairs, hp])
  obtain ⟨e1, w2, h1⟩ := checkGroup_ok_of_live s.wallets s.exceptions hw
  obtain ⟨e2, r2, h2⟩ := checkGroup_ok_of_live s.erc20 e1 he
  obtain ⟨e3, c2, h3⟩ := checkGroup_ok_of_live s.contract e2 hc
  refine ⟨⟨w2, r2, c2, e3⟩, ?_⟩
  rw [aggCheckDirty, h1]
  dsimp only
  rw [h2]
  dsimp only
  rw [h3]

/-! ## The gas-adjusted wallet monitor (`src/monitors/ethwallet.js`)

`ETHAddress` tracks a BN balance (modelled as `Int`) plus the running
`expectedGas` sum (`null` until first use, modelled as `none`). -/

structure WalletState where
  lastValue : Int
  expectedGas : Option Int
  dirty : Bool
  dirtyValue : Option Int

/-- A mined transaction receipt: only its `gasUsed` figure matters here. -/
structure Receipt where
  gasUsed : Int

/-- `gasForReceipt` (`utils.js`): `toBN(receipt.gasUsed) * getGasPrice()`;
the chain's current gas price is a parameter. -/
def gasForReceipt (r : Receipt) (gasPrice : Int) : Int :=
  r.gasUsed * gasPrice

/-- The result of a successful truffle call: `gasForCall` reads
`result.receipt`. -/
structure CallSuccess where
  receipt : Receipt

/-- A failed truffle call: a mined-but-reverted transaction carries its
receipt on the exception, an unmined failure does not. -/
structure CallFailure where
  receipt : Option Receipt
  msg : String

/-- `ETHAddress.expectGas`: lazily initialise `expectedGas` to zero, then add. -/
def expectGas (w : WalletState) (gasAmount : Int) : WalletState :=
  { w with expectedGas := some (w.expectedGas.getD 0 + gasAmount) }

/-- `ETHAddress.adjustExpectation`: subtract the accumulated gas when any was
recorded (`value.sub(this.expectedGas)`), else pass the value through. -/
def adjustExpectation (expectedGas : Option Int) (value : Int) : Int :=
  match expectedGas with
  | some g => value - g
  | none => value

/-- `ETHAddress.expect` → `StateMonitor.expect`: fetch the live balance,
adjust the expected value, compare with BN equality; on mismatch fail with
the assertion message (no state change), on match accept the live value
(`this.reset(actualValue)`, which for a wallet re-fetches the balance and
clears `expectedGas`; the re-fetch observes the same live balance, no
transaction intervenes). -/
def walletExpect (w : WalletState) (value : Int) (live : Int) :
    Except String WalletState :=
  if live = adjustExpectation w.expectedGas value then
    .ok { lastValue := live, expectedGas := none, dirty := false, dirtyValue := none }
  else
    .error ("eth: Error validating state (expected=" ++
      toString (adjustExpectation w.expectedGas value) ++ ", actual=" ++
      toString live ++ ")")

/-- `StateMonitor.expectFallsBy`: `expect(this.lastValue.sub(dropBy))`. -/
def walletExpectFallsBy (w : WalletState) (dropBy : Int) (live : Int) :
    Except String WalletState :=
  walletExpect w (w.lastValue - dropBy) live

/-- How `ETHAddress.call` ended for the caller. -/
inductive CallError where
  | precheck (msg : String)
  | reverted (exc : CallFailure)

/-- The observable outcome of one `ETHAddress.call`: whether the supplied
operation was ever invoked, the wallet and aggregator afterwards, and the
returned/raised result. -/
structure EthCallOut (V : Type) where
  executed : Bool
  wallet : WalletState
  agg : DappState V
  outcome : Except CallError CallSuccess

/-- `ETHAddress.call(state, contractMethod, ...params)`:

1. `await state.checkDirty(); state.assertNoExceptions();` — the aggregator
   precondition, run before anything else;
2. attribute the call to this wallet's address (`{from: ...}` splicing —
   pure argument plumbing, not modelled);
3. run the operation; on success fold `gasForCall(res)` into `expectedGas`;
   on failure fold the receipt's gas in when the exception carries one,
   then re-raise the exception unchanged.

`op` is the operation's outcome at this chain state; `gasPrice` the
chain's gas price.  On a precheck failure the aggregator is returned as
the source left it only in the assert case; monitor mutations made by a
group that checked before a failing fetch are not tracked (no claim
depends on them). -/
def ethCall {V : Type} (w : WalletState) (s : DappState V) (gasPrice : Int)
    (op : Except CallFailure CallSuccess) : EthCallOut V :=
  match aggCheckDirty s with
  | .error e => ⟨false, w, s, .error (.precheck e)⟩
  | .ok s2 =>
    match assertNoExceptions s2 with
    | .error e => ⟨false, w, s2, .error (.precheck e)⟩
    | .ok _ =>
      match op with
      | .ok res =>
        ⟨true, expectGas w (gasForReceipt res.receipt gasPrice), s2, .ok res⟩
      | .error exc =>
        match exc.receipt with
        | some r =>
          ⟨true, expectGas w (gasForReceipt r gasPrice), s2, .error (.reverted exc)⟩
        | none => ⟨true, w, s2, .error (.reverted exc)⟩

/-! ## The keypath-resolving contract monitor (`src/monitors/state.js`, `ContractState`) -/

/-- JavaScript property access `current[part]` as the keypath walk uses it:
a field lookup on a record, `undefined` (`none`) on anything else (scalar
property access yields `undefined`; BN internals and string
index/`length` properties are never traversed by a configured keypath). -/
def jsIndex : JSVal → String → Option JSVal
  | .obj fs, k => findField k fs
  | _, _ => none

/-- `keypath.split(".")` (single-character separator, as the source uses):
split the character list on every dot, keeping empty segments. -/
def splitOnDot : List Char → List (List Char)
  | [] => [[]]
  | c :: rest =>
    match splitOnDot rest with
    | [] => []
    | cur :: done => if c = '.' then [] :: cur :: done else (c :: cur) :: done

/-- The segments of a keypath string. -/
def keypathParts (s : String) : List String :=
  (splitOnDot s.toList).map (fun cs => String.mk cs)

/-- The `for (let part of parts)` walk of `ContractState.resolveKeypath`:
descend one field per segment, failing with the source's message at the
first segment whose access yields `undefined`
(`Error resolving keypath(${keypath}) - Got undefined at .${part}`). -/
def resolveParts (keypath : String) : List String → JSVal → Except String JSVal
  | [], current => .ok current
  | part :: rest, current =>
    match jsIndex current part with
    | none =>
      .error ("Error resolving keypath(" ++ keypath ++ ") - Got undefined at ." ++ part)
    | some next => resolveParts keypath rest next

/-- `ContractState.resolveKeypath(keypath, value)`. -/
def resolveKeypath (keypath : String) (value : JSVal) : Except String JSVal :=
  resolveParts keypath (keypathParts keypath) value

/-- `ContractState.fetchValue`, applied to the decoded accessor result
`val`: structured non-BN results require a configured keypath and are
resolved through it (the source's second `typeof val != 'object'` re-check
is unreachable and elided); scalars and BNs are returned as-is. -/
def contractFetchValue (keypath : Option String) (val : JSVal) :
    Except String JSVal :=
  if jsTypeof val = "object" ∧ ¬ isBN val then
    match keypath with
    | none => .error "Expected non-null keypath for ContractMonitor with on-chain object."
    | some kp => resolveKeypath kp val
  else
    .ok val

/-! ## Shared concrete fixtures for witnesses -/

/-- A monitor whose live value 7 differs from its accepted value 5. -/
def sampleDirtyMon : AMon Int :=
  ⟨"eth-wallet", toString, fun a b => a == b, some 7,
    { lastValue := 5, dirty := false, dirtyValue := none }⟩

/-- An aggregator holding exactly `sampleDirtyMon` under the name "alice". -/
def sampleDirtyState : DappState Int :=
  ⟨[("alice", sampleDirtyMon)], [], [], []⟩

/-! ## The claims -/

/-- C1 counterexample: the structured values `{name: "x", 0: "x"}` and
`{name: "x"}` do NOT compare equal under `dynamicEquals` — the claim says
the extra positional key is ignored, but the key-count check
(`keysA.length != keysB.length`) runs before the positional-key skip, so
the comparison returns false. -/
theorem c1_positional_extra_key_counterexample :
    dynamicEquals (.obj [("0", .str "x"), ("name", .str "x")])
        (.obj [("name", .str "x")]) ≠ .ok true := by
  simp [dynamicEquals, jsTypeof]

/-- C1 (amended): a structured value carrying an extra positional key
compares UNEQUAL (`false`) to one without it — whenever two structured
values have different key counts, `dynamicEquals` returns false before the
key walk (and hence before any positional key could be skipped). -/
theorem c1_key_count_precedes_positional_skip
    (fsA fsB : List (String × JSVal)) (h : fsA.length ≠ fsB.length) :
    dynamicEquals (.obj fsA) (.obj fsB) = .ok false := by
  rw [dynamicEquals.eq_def]
  simp [jsTypeof, h]

/-- C1 witness: the amended claim at the spec's own example — the extra
positional key makes the key counts 2 and 1, and the comparison is false. -/
theorem c1_key_count_precedes_positional_skip_witness :
    ([("0", JSVal.str "x"), ("name", JSVal.str "x")].length ≠
      [("name", JSVal.str "x")].length) ∧
    dynamicEquals (.obj [("0", .str "x"), ("name", .str "x")])
        (.obj [("name", .str "x")]) = .ok false :=
  ⟨by simp, c1_key_count_precedes_positional_skip _ _ (by simp)⟩

/-- C2 counterexample: wallet with `lastValue = 100`, a mined call that
transferred `v = 10` away and cost gas `g = 2` (so `expectedGas = 2` and
the live balance is 88).  The claim says `expect(100 - v)` fails with an
assertion error; in fact it SUCCEEDS, because `ETHAddress.expect` routes
the expected value through the same `adjustExpectation` that
`expectFallsBy` benefits from. -/
theorem c2_expect_ignoring_gas_succeeds :
    (walletExpect ⟨100, some 2, false, none⟩ (100 - 10) (100 - 10 - 2)).isOk = true := by
  rfl

/-- C2 (amended): with `lastValue = 100`, `expectedGas = g` and live balance
`100 - v - g`, `expectFallsBy(v)` succeeds, and `expect(100 - v)` EQUALLY
succeeds (it is the very same comparison: `expectFallsBy(v)` is
`expect(lastValue - v)`, and both run through `adjustExpectation`, which
returns `value - expectedGas` when `expectedGas` is set and the value
unchanged otherwise). -/
theorem c2_gas_compensation (g v : Int) :
    (walletExpectFallsBy ⟨100, some g, false, none⟩ v (100 - v - g)).isOk = true ∧
    (walletExpect ⟨100, some g, false, none⟩ (100 - v) (100 - v - g)).isOk = true ∧
    adjustExpectation (some g) (100 - v) = 100 - v - g ∧
    ∀ x : Int, adjustExpectation none x = x := by
  refine ⟨?_, ?_, rfl, fun x => rfl⟩ <;>
    simp [walletExpectFallsBy, walletExpect, adjustExpectation, Except.isOk,
      Except.toBool]

/-- C3: calling through a wallet monitor while any monitor of the
aggregator is dirty (its live value differs from its accepted value) fails
during the precheck — the supplied operation is never executed. -/
theorem c3_call_fails_when_dirty {V : Type} (w : WalletState) (s : DappState V)
    (gasPrice : Int) (op : Except CallFailure CallSuccess)
    (h : ∃ p ∈ aggPairs s, amonIsDirty p.2 = true) :
    (ethCall w s gasPrice op).executed = false ∧
    ∃ e, (ethCall w s gasPrice op).outcome = .error (.precheck e) := by
  obtain ⟨p, hp, hdirty⟩ := h
  cases hagg : aggCheckDirty s with
  | error e => exact ⟨by simp [ethCall, hagg], e, by simp [ethCall, hagg]⟩
  | ok s2 =>
    have hexc := aggCheckDirty_ok_exceptions hagg
    have hmem : msgOf p ∈ s2.exceptions := by
      rw [hexc]
      exact List.mem_append_right _
        (List.mem_map.mpr ⟨p, List.mem_filter.mpr ⟨hp, hdirty⟩, rfl⟩)
    have hlen : s2.exceptions.length > 0 :=
      List.length_pos.mpr (List.ne_nil_of_mem hmem)
    have hassert : assertNoExceptions s2 =
        .error ("The following exceptions occurred:\n" ++
          String.intercalate "\n"
            (s2.exceptions.enum.map (fun p => "#" ++ toString p.1 ++ ": " ++ p.2))) := by
      rw [assertNoExceptions, if_pos hlen]
    have houtcome : (ethCall w s gasPrice op).outcome =
        .error (.precheck ("The following exceptions occurred:\n" ++
          String.intercalate "\n"
            (s2.exceptions.enum.map (fun q => "#" ++ toString q.1 ++ ": " ++ q.2)))) := by
      simp [ethCall, hagg, hassert]
    exact ⟨by simp [ethCall, hagg, hassert], _, houtcome⟩

/-- C3 witness: a concrete aggregator whose single wallet monitor is dirty
(accepted 5, live 7) rejects a call without running the operation. -/
theorem c3_call_fails_when_dirty_witness :
    (∃ p ∈ aggPairs sampleDirtyState, amonIsDirty p.2 = true) ∧
    (ethCall ⟨100, none, false, none⟩ sampleDirtyState 1 (.ok ⟨⟨1⟩⟩)).executed = false ∧
    ∃ e, (ethCall ⟨100, none, false, none⟩ sampleDirtyState 1
      (.ok ⟨⟨1⟩⟩)).outcome = .error (.precheck e) := by
  have h : ∃ p ∈ aggPairs sampleDirtyState, amonIsDirty p.2 = true :=
    ⟨("alice", sampleDirtyMon), by simp [aggPairs, sampleDirtyState], rfl⟩
  exact ⟨h, c3_call_fails_when_dirty _ _ _ _ h⟩

/-- C4: across any sequence of reset/checkDirty/expect operations, whenever
`dirty` is true, `dirtyValue` holds a value the monitor's equality relation
distinguishes from `lastValue`; and `reset` (with or without an explicit
value) always clears `dirty` and `dirtyValue`. -/
theorem c4_monitor_dirty_invariant {V : Type} (eqF : V → V → Bool) (adj : V → V)
    (ops : List (MonitorOp V)) (s : MonitorState V) (h : MonitorInv eqF s) :
    MonitorInv eqF (monitorRun eqF adj ops s) ∧
    ∀ (toValue : Option V) (fetched : V) (s2 : MonitorState V),
      (monitorStep eqF adj (.reset toValue fetched) s2).dirty = false ∧
      (monitorStep eqF adj (.reset toValue fetched) s2).dirtyValue = none := by
  constructor
  · induction ops generalizing s with
    | nil => exact h
    | cons op rest ih => exact ih _ (monitorStep_inv eqF adj op s h)
  · intro toValue fetched s2
    exact ⟨rfl, rfl⟩

/-- C4 witness: the invariant threaded through a concrete run (a dirtying
check followed by a reset) from an initially clean integer monitor. -/
theorem c4_monitor_dirty_invariant_witness :
    MonitorInv (fun a b : Int => a == b) ⟨5, false, none⟩ ∧
    (MonitorInv (fun a b : Int => a == b)
      (monitorRun (fun a b : Int => a == b) id
        [.checkDirty 7, .reset none 7] ⟨5, false, none⟩) ∧
    ∀ (toValue : Option Int) (fetched : Int) (s2 : MonitorState Int),
      (monitorStep (fun a b : Int => a == b) id (.reset toValue fetched) s2).dirty = false ∧
      (monitorStep (fun a b : Int => a == b) id (.reset toValue fetched) s2).dirtyValue = none) := by
  have h : MonitorInv (fun a b : Int => a == b) ⟨5, false, none⟩ := by
    intro hd
    exact absurd hd (by simp)
  exact ⟨h, c4_monitor_dirty_invariant _ _ _ _ h⟩

/-- C5: when the aggregator's `checkDirty()` runs with every fetch
succeeding and exactly one monitor `M` (named `nm`) dirty, the exception
log afterwards holds exactly one entry:
`<kind>.<name>: un-asserted state change detected (<last>) => (<dirty>)`. -/
theorem c5_single_dirty_exception {V : Type} (s : DappState V) (nm : String)
    (M : AMon V) (dv : V)
    (hexc : s.exceptions = [])
    (hfetch : ∀ p ∈ aggPairs s, p.2.live.isSome)
    (hone : (aggPairs s).filter (fun p => amonIsDirty p.2) = [(nm, M)])
    (hdv : M.live = some dv) :
    ∃ s2, aggCheckDirty s = .ok s2 ∧
      s2.exceptions = [M.kind ++ "." ++ nm ++ ": un-asserted state change detected (" ++
        M.ser M.st.lastValue ++ ") => (" ++ M.ser dv ++ ")"] := by
  obtain ⟨s2, h⟩ := aggCheckDirty_ok_of_live hfetch
  refine ⟨s2, h, ?_⟩
  rw [aggCheckDirty_ok_exceptions h, hexc, hone]
  simp [msgOf, hdv, dirtyMsg]

/-- C5 witness: the single dirty monitor "alice" (kind "eth-wallet",
accepted 5, live 7) yields exactly one diagnostic. -/
theorem c5_single_dirty_exception_witness :
    ((aggPairs sampleDirtyState).filter (fun p => amonIsDirty p.2) =
      [("alice", sampleDirtyMon)]) ∧
    ∃ s2, aggCheckDirty sampleDirtyState = .ok s2 ∧
      s2.exceptions = [sampleDirtyMon.kind ++ "." ++ "alice" ++
        ": un-asserted state change detected (" ++
        sampleDirtyMon.ser sampleDirtyMon.st.lastValue ++ ") => (" ++
        sampleDirtyMon.ser 7 ++ ")"] := by
  refine ⟨rfl, c5_single_dirty_exception _ _ _ _ rfl ?_ rfl rfl⟩
  intro p hp
  simp [aggPairs, sampleDirtyState] at hp
  rw [hp]
  rfl

/-- C6: when a call's operation fails, a failure carrying a receipt (mined
but reverted) has its gas cost folded into `expectedGas` and the failure
re-raised unchanged; a failure without a receipt leaves the wallet
untouched and is re-raised as-is. -/
theorem c6_failure_gas_accounting {V : Type} (w : WalletState) (s s2 : DappState V)
    (gasPrice : Int) (exc : CallFailure)
    (h1 : aggCheckDirty s = .ok s2) (h2 : s2.exceptions = []) :
    (∀ r, exc.receipt = some r →
      (ethCall w s gasPrice (.error exc)).wallet.expectedGas =
        some (w.expectedGas.getD 0 + gasForReceipt r gasPrice) ∧
      (ethCall w s gasPrice (.error exc)).outcome = .error (.reverted exc)) ∧
    (exc.receipt = none →
      (ethCall w s gasPrice (.error exc)).wallet = w ∧
      (ethCall w s gasPrice (.error exc)).outcome = .error (.reverted exc)) := by
  have hassert : assertNoExceptions s2 = .ok () := by
    rw [assertNoExceptions]
    simp [h2]
  constructor
  · intro r hr
    constructor <;> simp [ethCall, h1, hassert, hr, expectGas]
  · intro hr
    constructor <;> simp [ethCall, h1, hassert, hr]

/-- C6 witness: through a clean empty aggregator, a reverted call whose
failure carries a receipt with `gasUsed = 5` at gas price 3 accumulates 15
into the wallet's (previously unset) `expectedGas`, and the failure is
re-raised. -/
theorem c6_failure_gas_accounting_witness :
    aggCheckDirty (⟨[], [], [], []⟩ : DappState Int) = .ok ⟨[], [], [], []⟩ ∧
    (ethCall ⟨100, none, false, none⟩ (⟨[], [], [], []⟩ : DappState Int) 3
      (.error ⟨some ⟨5⟩, "reverted"⟩)).wallet.expectedGas =
      some ((none : Option Int).getD 0 + gasForReceipt ⟨5⟩ 3) ∧
    (ethCall ⟨100, none, false, none⟩ (⟨[], [], [], []⟩ : DappState Int) 3
      (.error ⟨some ⟨5⟩, "reverted"⟩)).outcome =
      .error (.reverted ⟨some ⟨5⟩, "reverted"⟩) := by
  refine ⟨rfl, ?_, ?_⟩
  · exact ((c6_failure_gas_accounting ⟨100, none, false, none⟩ ⟨[], [], [], []⟩
      ⟨[], [], [], []⟩ 3 ⟨some ⟨5⟩, "reverted"⟩ rfl rfl).1 ⟨5⟩ rfl).1
  · exact ((c6_failure_gas_accounting ⟨100, none, false, none⟩ ⟨[], [], [], []⟩
      ⟨[], [], [], []⟩ 3 ⟨some ⟨5⟩, "reverted"⟩ rfl rfl).1 ⟨5⟩ rfl).2

/-- C7: on the structured fetch result `{a: {b: 42}}`, the contract
monitor's fetch resolves keypath "a.b" to 42, and fails on keypath "a.c"
with the resolution error naming segment `c` (the first segment whose
access yields undefined). -/
theorem c7_keypath_resolution :
    contractFetchValue (some "a.b") (.obj [("a", .obj [("b", .num 42)])]) =
      .ok (.num 42) ∧
    contractFetchValue (some "a.c") (.obj [("a", .obj [("b", .num 42)])]) =
      .error "Error resolving keypath(a.c) - Got undefined at .c" :=
  ⟨rfl, rfl⟩

/-- C8: when the live value does not change between a value-less `reset()`
and the following `checkDirty()`, that check reports false and leaves the
monitor clean (given the monitor's equality is reflexive at the fetched
value). -/
theorem c8_checkDirty_false_after_reset {V : Type} (eqF : V → V → Bool)
    (adj : V → V) (v : V) (s : MonitorState V) (h : eqF v v = true) :
    (monitorStep eqF adj (.checkDirty v)
      (monitorStep eqF adj (.reset none v) s)).dirty = false := by
  simp [monitorStep, h]

/-- C8 witness: an integer monitor reset to the live value 5 reports clean
on the immediately following check. -/
theorem c8_checkDirty_false_after_reset_witness :
    ((5 : Int) == 5) = true ∧
    (monitorStep (fun a b : Int => a == b) id (.checkDirty 5)
      (monitorStep (fun a b : Int => a == b) id (.reset none 5)
        ⟨0, true, some 1⟩)).dirty = false :=
  ⟨by decide, c8_checkDirty_false_after_reset _ _ _ _ (by decide)⟩

/-- C9: whenever the two compared values' basic kinds (`typeof`) differ,
`dynamicEquals` raises the type-mismatch error naming both kinds — it
never returns false for such a pair. -/
theorem c9_type_mismatch_error (a b : JSVal) (h : jsTypeof a ≠ jsTypeof b) :
    dynamicEquals a b = .error (typeMismatchMsg (jsTypeof a) (jsTypeof b)) := by
  rw [dynamicEquals.eq_def, if_pos h]

/-- C9 witness: comparing the number 1 against a structured value raises
the type-mismatch error. -/
theorem c9_type_mismatch_error_witness :
    jsTypeof (.num 1) ≠ jsTypeof (.obj []) ∧
    dynamicEquals (.num 1) (.obj []) =
      .error (typeMismatchMsg (jsTypeof (.num 1)) (jsTypeof (.obj []))) :=
  ⟨by decide, c9_type_mismatch_error _ _ (by decide)⟩

/-- C10: two structured values with the same keys that differ only in the
values stored at positional keys "0"/"1"/"2"/"3" compare equal — those
entries are skipped by the key walk and never recursively compared.
(`hwf` restricts to field lists that represent real JS objects — unique
keys at every nesting level; `hsame` says every non-positional entry of
the first value is found unchanged in the second.) -/
theorem c10_positional_values_ignored (fsA fsB : List (String × JSVal))
    (hkeys : fsA.map Prod.fst = fsB.map Prod.fst)
    (hwf : ∀ p ∈ fsA, JSWF p.2)
    (hsame : ∀ p ∈ fsA, ¬ isPositional p.1 → findField p.1 fsB = some p.2) :
    dynamicEquals (.obj fsA) (.obj fsB) = .ok true := by
  have hlen : fsA.length = fsB.length := by
    have h2 := congrArg List.length hkeys
    simpa using h2
  have hw2 := walkFields_ok fsA fsB (fun p hp hpos =>
    ⟨p.2, hsame p hp hpos, dynamicEquals_refl (hwf p hp)⟩)
  rw [dynamicEquals.eq_def]
  simp [jsTypeof, hlen, hw2]

/-- C10 witness: `{0: "a", name: "x"}` and `{0: "b", name: "x"}` differ
only at positional key "0" and compare equal. -/
theorem c10_positional_values_ignored_witness :
    dynamicEquals (.obj [("0", .str "a"), ("name", .str "x")])
      (.obj [("0", .str "b"), ("name", .str "x")]) = .ok true := by
  refine c10_positional_values_ignored _ _ rfl ?_ ?_
  · intro p hp
    simp at hp
    rcases hp with h | h <;> rw [h] <;> exact JSWF.str _
  · intro p hp hpos
    simp at hp
    rcases hp with h | h
    · rw [h] at hpos
      exact absurd (Or.inl rfl) hpos
    · rw [h]
      rfl

end Bsan
